import Mathlib

/-!
Verification of the clearout.bio link-scanning pipeline.

The definitions below are a shallow embedding of the TypeScript source:
`src/app/api/scan-links/route.ts` (URL normalizer, link extractor, link
prober `checkLink`, batch scheduler and the `POST` orchestrator) and the
client-side export in `src/app/page.tsx`.  Network effects are made
explicit: the outcome of each `fetch` call is an input to the embedded
function, so the pure classification and aggregation logic can be proved
about directly.
-/

/-- One probed link, mirroring the `LinkResult` interface of the source. -/
structure LinkResult where
  originalUrl : String
  finalUrl : String
  status : Nat
  statusText : String
  isWorking : Bool
  isRedirect : Bool
  responseTime : Nat
deriving DecidableEq

/-- Aggregate scan statistics, mirroring the `ScanResult` interface. -/
structure ScanResult where
  totalLinks : Nat
  workingLinks : Nat
  brokenLinks : Nat
  redirects : Nat
  links : List LinkResult
deriving DecidableEq

/-- Boolean test that one character list starts with another; models
`String.prototype.startsWith` on the underlying character lists so that the
kernel can evaluate it on concrete strings. -/
def listStartsWith : List Char → List Char → Bool
  | _, [] => true
  | [], _ :: _ => false
  | c :: cs, d :: ds => c == d && listStartsWith cs ds

/-- Model of JavaScript's `url.startsWith(p)` used throughout the source. -/
def strStartsWith (s p : String) : Bool :=
  listStartsWith s.toList p.toList

/-- Characters allowed in a URL scheme after the leading letter. -/
def schemeCharOk (c : Char) : Bool :=
  c.isAlphanum || c == '+' || c == '-' || c == '.'

/-- Split a character list at its first colon, returning the parts before
and after it; `none` when no colon occurs. -/
def splitAtColon : List Char → Option (List Char × List Char)
  | [] => none
  | c :: cs =>
    if c == ':' then some ([], cs)
    else
      match splitAtColon cs with
      | some (a, b) => some (c :: a, b)
      | none => none

/-- Parsed form of a URL: either a hierarchical `scheme://host/path` URL
(for the special schemes `http`/`https`) or a generic `scheme:rest` URL
such as `mailto:` or `tel:`. -/
inductive ParsedUrl where
  | special (scheme host path : String)
  | nonSpecial (scheme rest : String)
deriving DecidableEq

/-- Model of the platform `new URL(s)` constructor, restricted to the URL
shapes this repository feeds it: `http`/`https` URLs of the form
`scheme://host/path` (no userinfo, query, fragment, dot-segment or case
normalization) and generic `scheme:rest` URLs.  Returns `none` where the
constructor would throw. -/
def parseURL (s : String) : Option ParsedUrl :=
  match splitAtColon s.toList with
  | none => none
  | some (schemeCs, restCs) =>
    match schemeCs with
    | [] => none
    | c :: cs =>
      if c.isAlpha && (c :: cs).all schemeCharOk then
        let scheme := String.mk (c :: cs)
        if scheme = "http" || scheme = "https" then
          match restCs with
          | '/' :: '/' :: afterCs =>
            let hostCs := afterCs.takeWhile (fun ch => ch != '/')
            let pathCs := afterCs.dropWhile (fun ch => ch != '/')
            if hostCs = [] then none
            else
              some (.special scheme (String.mk hostCs)
                (if pathCs = [] then "/" else String.mk pathCs))
          | _ => none
        else
          some (.nonSpecial scheme (String.mk restCs))
      else none

/-- Serialized form of a parsed URL, modelling the `href` property. -/
def ParsedUrl.href : ParsedUrl → String
  | .special scheme host path => scheme ++ "://" ++ host ++ path
  | .nonSpecial scheme rest => scheme ++ ":" ++ rest

/-- The `origin` property: `scheme://host` for hierarchical URLs, the
literal string `"null"` for non-special URLs (as in the platform). -/
def ParsedUrl.origin : ParsedUrl → String
  | .special scheme host _ => scheme ++ "://" ++ host
  | .nonSpecial _ _ => "null"

/-- The directory part of a path: everything up to and including the last
slash (used for standard relative-URL resolution). -/
def dirOf (path : String) : String :=
  String.mk ((path.toList.reverse.dropWhile (fun ch => ch != '/')).reverse)

/-- Model of the two-argument `new URL(url, base)` constructor: an
absolute `url` wins outright; otherwise `url` is resolved against a
hierarchical base (root-relative or relative to the base's directory).
`none` where the constructor would throw. -/
def resolveURL (url base : String) : Option String :=
  match parseURL url with
  | some u => some u.href
  | none =>
    match parseURL base with
    | some (.special scheme host path) =>
      if strStartsWith url "/" then some (scheme ++ "://" ++ host ++ url)
      else some (scheme ++ "://" ++ host ++ dirOf path ++ url)
    | some (.nonSpecial _ _) => none
    | none => none

/-- Source `isValidUrl`: a string is valid iff `new URL(string)` does not
throw. -/
def isValidUrl (s : String) : Bool :=
  (parseURL s).isSome

/-- The body of the source `normalizeUrl` up to its `try`/`catch`: each
branch that constructs a `URL` can fail, modelled as `Except.error` where
the platform constructor would throw. -/
def normalizeUrlAttempt (url : String) (baseUrl : Option String) : Except String String :=
  if strStartsWith url "http://" || strStartsWith url "https://" then .ok url
  else if strStartsWith url "//" then .ok ("https:" ++ url)
  else if strStartsWith url "/" then
    match baseUrl with
    | some b =>
      match parseURL b with
      | some base => .ok (base.origin ++ url)
      | none => .error "Invalid base URL"
    | none => .ok url
  else
    match baseUrl with
    | some b =>
      match resolveURL url b with
      | some s => .ok s
      | none => .error "Invalid URL"
    | none => .ok ("https://" ++ url)

/-- Source `normalizeUrl`: the `try` body with the `catch` returning the
original string unchanged. -/
def normalizeUrl (url : String) (baseUrl : Option String) : String :=
  match normalizeUrlAttempt url baseUrl with
  | .ok s => s
  | .error _ => url

/-- Outcome of the `fetch` call inside `checkLink`: either a response
(with the URL the response was served from, its status code and status
text) or a thrown transport failure carrying an `Error` message, `none`
standing for a thrown non-`Error` value. -/
inductive FetchOutcome where
  | response (respUrl : String) (status : Nat) (statusText : String)
  | failure (message : Option String)
deriving DecidableEq

/-- Source `getStatusText`: static status-code to reason-phrase table. -/
def getStatusText (status : Nat) : String :=
  if status = 200 then "OK"
  else if status = 201 then "Created"
  else if status = 301 then "Moved Permanently"
  else if status = 302 then "Found"
  else if status = 304 then "Not Modified"
  else if status = 400 then "Bad Request"
  else if status = 401 then "Unauthorized"
  else if status = 403 then "Forbidden"
  else if status = 404 then "Not Found"
  else if status = 500 then "Internal Server Error"
  else if status = 502 then "Bad Gateway"
  else if status = 503 then "Service Unavailable"
  else "Unknown"

/-- Source `checkLink`, with the outcome of the ten-second `HEAD` fetch
and the measured elapsed milliseconds passed in explicitly.  The
`response` branch is the `try` body after the fetch resolves; the
`failure` branch is the `catch` block.  `finalUrl` models
`response.url || url` (empty string is falsy), `statusText` models
`response.statusText || getStatusText(response.status)`. -/
def checkLink (url : String) (outcome : FetchOutcome) (elapsed : Nat) : LinkResult :=
  match outcome with
  | .response respUrl status statusText =>
    { originalUrl := url
      finalUrl := if respUrl = "" then url else respUrl
      status := status
      statusText := if statusText = "" then getStatusText status else statusText
      isWorking := decide (200 ≤ status ∧ status < 400)
      isRedirect := decide (respUrl ≠ url)
      responseTime := elapsed }
  | .failure message =>
    { originalUrl := url
      finalUrl := url
      status := 0
      statusText := message.getD "Network Error"
      isWorking := false
      isRedirect := false
      responseTime := elapsed }

/-- The `each` loop of the source `extractLinks`, carried out over the
`href` attribute values of the page's anchors in document order, with the
accumulated `links` array made explicit.  Empty `href` values are skipped
(the source guards with `if (href)`). -/
def extractLinksGo (baseUrl : String) (acc : List String) : List String → List String
  | [] => acc
  | href :: rest =>
    if href = "" then extractLinksGo baseUrl acc rest
    else
      if isValidUrl (normalizeUrl href (some baseUrl))
          && !(strStartsWith (normalizeUrl href (some baseUrl)) "mailto:")
          && !(strStartsWith (normalizeUrl href (some baseUrl)) "tel:") then
        if normalizeUrl href (some baseUrl) ∈ acc then extractLinksGo baseUrl acc rest
        else extractLinksGo baseUrl (acc ++ [normalizeUrl href (some baseUrl)]) rest
      else extractLinksGo baseUrl acc rest

/-- Source `extractLinks`, abstracted over the parsed anchor `href`
values (the cheerio HTML parse is external to the repository, so the
extractor is modelled as a function of the `href` list it iterates). -/
def extractLinks (hrefs : List String) (baseUrl : String) : List String :=
  extractLinksGo baseUrl [] hrefs

/-- The consecutive batches of at most ten URLs taken by the `POST` loop
`for (let i = 0; i < extractedLinks.length; i += maxConcurrent)`:
`slice(i, i + 10)` chunks in input order. -/
def batchesOf : List String → List (List String)
  | [] => []
  | a1 :: a2 :: a3 :: a4 :: a5 :: a6 :: a7 :: a8 :: a9 :: a10 :: rest =>
    [a1, a2, a3, a4, a5, a6, a7, a8, a9, a10] :: batchesOf rest
  | xs => [xs]

/-- The batch-scheduling loop of `POST`: for each batch, `Promise.all`
over `batch.map(link => checkLink(link))` resolves to the results in the
batch's own order (position-indexed, not completion-ordered), and the
loop appends them to `linkResults`. -/
def processBatches (probe : String → LinkResult) (urls : List String) : List LinkResult :=
  (batchesOf urls).foldl (fun acc batch => acc ++ batch.map probe) []

/-- The statistics computation and `ScanResult` assembly at the end of
`POST` (lines 208-219 of the route). -/
def mkScanResult (linkResults : List LinkResult) : ScanResult :=
  { totalLinks := linkResults.length
    workingLinks := (linkResults.filter (fun link => link.isWorking && !link.isRedirect)).length
    brokenLinks := (linkResults.filter (fun link => !link.isWorking)).length
    redirects := (linkResults.filter (fun link => link.isRedirect && link.isWorking)).length
    links := linkResults }

/-- Outcome of the page fetch performed by `POST`: a successful response
(`response.ok`, abstracted to the anchor `href` values of its HTML), a
non-ok HTTP response, an abort of the fifteen-second timeout, or another
thrown network error. -/
inductive PageFetch where
  | ok (hrefs : List String)
  | httpError (status : Nat) (statusText : String)
  | aborted
  | netError (message : String)
deriving DecidableEq

/-- HTTP response of the endpoint: 200 with a `ScanResult`, 400, 408 or
500 with an error message. -/
inductive ScanResponse where
  | success (result : ScanResult)
  | clientError (message : String)
  | timeout (message : String)
  | serverError (message : String)
deriving DecidableEq

/-- Source `POST` handler, with the request body's `url` field, the page
fetch outcome and the per-link fetch outcomes (with their elapsed times)
passed in explicitly.  A missing or non-string `url` is `none`; the empty
string is falsy in the source's `!url` check. -/
def POST (body : Option String) (fetch : PageFetch)
    (outcome : String → FetchOutcome) (elapsed : String → Nat) : ScanResponse :=
  match body with
  | none => .clientError "URL is required"
  | some url =>
    if url = "" then .clientError "URL is required"
    else if !isValidUrl url then .clientError "Invalid URL format"
    else
      match fetch with
      | .httpError status statusText =>
        .clientError ("Failed to fetch URL: " ++ toString status ++ " " ++ statusText)
      | .aborted => .timeout "Request timeout - the URL took too long to respond"
      | .netError _ => .serverError "Internal server error"
      | .ok hrefs =>
        if (extractLinks hrefs url).length = 0 then
          .success { totalLinks := 0, workingLinks := 0, brokenLinks := 0, redirects := 0, links := [] }
        else
          .success (mkScanResult (processBatches
            (fun link => checkLink link (outcome link) (elapsed link))
            (extractLinks hrefs url)))

/-- The filter inside `exportAsHTML` in `src/app/page.tsx` (line 66):
`result.links.filter(link => link.isWorking)`. -/
def exportWorkingOf (result : ScanResult) : List LinkResult :=
  result.links.filter (fun link => link.isWorking)

/-- Source `exportAsHTML` of `src/app/page.tsx`: the static HTML snippet
produced for download, one anchor per exported link, showing `finalUrl`. -/
def exportAsHTML (result : ScanResult) : String :=
  "<!-- Cleaned Links from ClearOut.bio -->\n<div class=\"bio-links\">\n"
    ++ String.intercalate "\n"
        ((exportWorkingOf result).map
          (fun link => "  <a href=\"" ++ link.finalUrl
            ++ "\" target=\"_blank\" rel=\"noopener noreferrer\">" ++ link.finalUrl ++ "</a>"))
    ++ "\n</div>"

/-- Unfolding characterization of `batchesOf`: a nonempty list yields its
first ten (or fewer) URLs as one batch followed by the batches of the
rest. -/
lemma batchesOf_spec (xs : List String) :
    xs = [] ∨ (xs ≠ [] ∧ batchesOf xs = xs.take 10 :: batchesOf (xs.drop 10)) := by
  rcases xs with _ | ⟨a1, xs⟩
  · exact Or.inl rfl
  refine Or.inr ⟨by simp, ?_⟩
  rcases xs with _ | ⟨a2, xs⟩; · rfl
  rcases xs with _ | ⟨a3, xs⟩; · rfl
  rcases xs with _ | ⟨a4, xs⟩; · rfl
  rcases xs with _ | ⟨a5, xs⟩; · rfl
  rcases xs with _ | ⟨a6, xs⟩; · rfl
  rcases xs with _ | ⟨a7, xs⟩; · rfl
  rcases xs with _ | ⟨a8, xs⟩; · rfl
  rcases xs with _ | ⟨a9, xs⟩; · rfl
  rcases xs with _ | ⟨a10, xs⟩; · rfl
  rfl

/-- Concatenating the batches gives back the input: the chunking covers
the URLs exactly once, in input order. -/
lemma batchesOf_flatten : ∀ xs : List String, (batchesOf xs).flatten = xs
  | [] => rfl
  | a1 :: rest => by
    rcases batchesOf_spec (a1 :: rest) with h | ⟨-, hs⟩
    · exact absurd h (by simp)
    · rw [hs, List.flatten_cons, batchesOf_flatten ((a1 :: rest).drop 10),
        List.take_append_drop]
termination_by xs => xs.length
decreasing_by
  simp only [List.length_drop, List.length_cons]
  omega

/-- Every batch holds at most ten URLs (the `maxConcurrent` cap). -/
lemma batchesOf_chunk_le : ∀ xs : List String, ∀ b ∈ batchesOf xs, b.length ≤ 10
  | [] => by simp [batchesOf]
  | a1 :: rest => by
    rcases batchesOf_spec (a1 :: rest) with h | ⟨-, hs⟩
    · simp at h
    · rw [hs]
      intro b hb
      rcases List.mem_cons.mp hb with rfl | hb
      · simp
      · exact batchesOf_chunk_le ((a1 :: rest).drop 10) b hb
termination_by xs => xs.length
decreasing_by
  simp only [List.length_drop, List.length_cons]
  omega

/-- The accumulating fold over batches appends the mapped batches in
order. -/
lemma foldl_push_batches (probe : String → LinkResult) (bs : List (List String))
    (acc : List LinkResult) :
    bs.foldl (fun acc batch => acc ++ batch.map probe) acc
      = acc ++ (bs.map (fun b => b.map probe)).flatten := by
  induction bs generalizing acc with
  | nil => simp
  | cons b bs ih => simp [List.foldl_cons, ih]

/-- The batch scheduler is extensionally the pointwise probe of every URL
in input order. -/
lemma processBatches_eq_map (probe : String → LinkResult) (urls : List String) :
    processBatches probe urls = urls.map probe := by
  rw [processBatches, foldl_push_batches, List.nil_append, ← List.map_flatten,
    batchesOf_flatten]

/-- Both branches of `checkLink` set `originalUrl` to the probed URL. -/
lemma checkLink_originalUrl (url : String) (outcome : FetchOutcome) (elapsed : Nat) :
    (checkLink url outcome elapsed).originalUrl = url := by
  cases outcome <;> rfl

/-- Each link falls in exactly one of the three counters of the source's
statistics step: working non-redirect, working redirect, or broken. -/
lemma filter_partition (linkResults : List LinkResult) :
    (linkResults.filter (fun link => link.isWorking && !link.isRedirect)).length
      + (linkResults.filter (fun link => link.isRedirect && link.isWorking)).length
      + (linkResults.filter (fun link => !link.isWorking)).length
      = linkResults.length := by
  induction linkResults with
  | nil => rfl
  | cons a t ih =>
    cases hw : a.isWorking <;> cases hr : a.isRedirect <;>
      simp [List.filter_cons, hw, hr] <;> omega

/-- Loop invariant of the extractor: starting from an accumulator with no
duplicates and no `mailto:`/`tel:` entries, the loop preserves both
properties. -/
lemma extractLinksGo_invariant (baseUrl : String) (hrefs : List String) :
    ∀ acc : List String, acc.Nodup →
      (∀ l ∈ acc, strStartsWith l "mailto:" = false ∧ strStartsWith l "tel:" = false) →
      (extractLinksGo baseUrl acc hrefs).Nodup
      ∧ ∀ l ∈ extractLinksGo baseUrl acc hrefs,
          strStartsWith l "mailto:" = false ∧ strStartsWith l "tel:" = false := by
  induction hrefs with
  | nil => exact fun acc hnd hp => ⟨hnd, hp⟩
  | cons href rest ih =>
    intro acc hnd hp
    by_cases h0 : href = ""
    · simp only [extractLinksGo, if_pos h0]
      exact ih acc hnd hp
    · simp only [extractLinksGo, if_neg h0]
      by_cases hc : (isValidUrl (normalizeUrl href (some baseUrl))
          && !(strStartsWith (normalizeUrl href (some baseUrl)) "mailto:")
          && !(strStartsWith (normalizeUrl href (some baseUrl)) "tel:")) = true
      · rw [if_pos hc]
        by_cases hm : normalizeUrl href (some baseUrl) ∈ acc
        · rw [if_pos hm]
          exact ih acc hnd hp
        · rw [if_neg hm]
          refine ih (acc ++ [normalizeUrl href (some baseUrl)]) ?_ ?_
          · refine List.nodup_append.mpr ⟨hnd, List.nodup_singleton _, ?_⟩
            intro x hx hx1
            rw [List.mem_singleton] at hx1
            subst hx1
            exact hm hx
          · intro l hl
            rcases List.mem_append.mp hl with hl | hl
            · exact hp l hl
            · rw [List.mem_singleton] at hl
              subst hl
              simp only [Bool.and_eq_true, Bool.not_eq_true'] at hc
              exact ⟨hc.1.2, hc.2⟩
      · rw [if_neg hc]
        exact ih acc hnd hp

/-- The candidate URLs of a page in document order: nonempty hrefs,
normalized, kept when valid and not `mailto:`/`tel:` (the per-anchor test
of the extractor, before deduplication). -/
def candidateUrls (hrefs : List String) (baseUrl : String) : List String :=
  ((hrefs.filter (fun href => href != "")).map
      (fun href => normalizeUrl href (some baseUrl))).filter
    (fun u => isValidUrl u && !(strStartsWith u "mailto:") && !(strStartsWith u "tel:"))

/-- Deduplication by exact string equality keeping only the first
occurrence, relative to an already-seen list; stated from the spec's
description of the extractor's dedup step, to compare with the source
loop. -/
def dedupFirstSeen (seen : List String) : List String → List String
  | [] => []
  | x :: xs =>
    if x ∈ seen then dedupFirstSeen seen xs
    else x :: dedupFirstSeen (seen ++ [x]) xs

/-- The extractor loop is first-occurrence dedup of the candidate URLs,
appended to the accumulator. -/
lemma extractLinksGo_dedup (baseUrl : String) (hrefs : List String) :
    ∀ acc : List String,
      extractLinksGo baseUrl acc hrefs = acc ++ dedupFirstSeen acc (candidateUrls hrefs baseUrl) := by
  induction hrefs with
  | nil => intro acc; simp [extractLinksGo, candidateUrls, dedupFirstSeen]
  | cons href rest ih =>
    intro acc
    by_cases h0 : href = ""
    · simp only [extractLinksGo, if_pos h0]
      rw [ih acc]
      have : candidateUrls (href :: rest) baseUrl = candidateUrls rest baseUrl := by
        simp [candidateUrls, List.filter_cons, h0]
      rw [this]
    · simp only [extractLinksGo, if_neg h0]
      by_cases hc : (isValidUrl (normalizeUrl href (some baseUrl))
          && !(strStartsWith (normalizeUrl href (some baseUrl)) "mailto:")
          && !(strStartsWith (normalizeUrl href (some baseUrl)) "tel:")) = true
      · rw [if_pos hc]
        have hcand : candidateUrls (href :: rest) baseUrl
            = normalizeUrl href (some baseUrl) :: candidateUrls rest baseUrl := by
          simp only [candidateUrls, List.filter_cons]
          rw [if_pos (by simpa using h0)]
          simp only [List.map_cons, List.filter_cons, if_pos hc]
        rw [hcand]
        by_cases hm : normalizeUrl href (some baseUrl) ∈ acc
        · rw [if_pos hm, ih acc, dedupFirstSeen, if_pos hm]
        · rw [if_neg hm, ih (acc ++ [normalizeUrl href (some baseUrl)]), dedupFirstSeen,
            if_neg hm, List.append_assoc]
          rfl
      · rw [if_neg hc]
        rw [ih acc]
        have : candidateUrls (href :: rest) baseUrl = candidateUrls rest baseUrl := by
          simp only [candidateUrls, List.filter_cons]
          rw [if_pos (by simpa using h0)]
          simp only [List.map_cons, List.filter_cons, if_neg hc]
        rw [this]

/-- Sample scan of a page with one anchor whose probe resolves at a
different final URL with status 200: a single working redirect. -/
def sampleScanResult : ScanResult :=
  ⟨1, 0, 0, 1, [⟨"https://b.com", "https://c.com/", 200, "OK", true, true, 5⟩]⟩

/-- C1: counterexample.  A scan of a page with a single anchor whose
probe is a working redirect returns a ScanResult with totalLinks = 1 but
workingLinks = 0 and brokenLinks = 0, so the claimed invariant
workingLinks + brokenLinks = totalLinks fails on the code. -/
theorem C1_counterexample :
    POST (some "https://a.com/") (.ok ["https://b.com"])
      (fun _ => .response "https://c.com/" 200 "OK") (fun _ => 5) = .success sampleScanResult
    ∧ sampleScanResult.workingLinks + sampleScanResult.brokenLinks ≠ sampleScanResult.totalLinks :=
  ⟨rfl, by decide⟩

/-- C1 (amended): every ScanResult returned by the POST handler satisfies
totalLinks = links.length and workingLinks + redirects + brokenLinks =
totalLinks; the workingLinks counter excludes redirects, so redirects are
a third disjoint bucket, not a subset of workingLinks. -/
theorem C1_scan_invariants (body : Option String) (fetch : PageFetch)
    (outcome : String → FetchOutcome) (elapsed : String → Nat) (result : ScanResult)
    (h : POST body fetch outcome elapsed = .success result) :
    result.totalLinks = result.links.length
    ∧ result.workingLinks + result.redirects + result.brokenLinks = result.totalLinks := by
  cases body with
  | none => exact ScanResponse.noConfusion h
  | some url =>
    simp only [POST] at h
    split at h
    · exact ScanResponse.noConfusion h
    · split at h
      · exact ScanResponse.noConfusion h
      · split at h
        · exact ScanResponse.noConfusion h
        · exact ScanResponse.noConfusion h
        · exact ScanResponse.noConfusion h
        · split at h
          · injection h with h
            subst h
            exact ⟨rfl, rfl⟩
          · injection h with h
            subst h
            exact ⟨rfl, filter_partition _⟩

/-- C1: witness for the amended invariant at a concrete scan. -/
theorem C1_scan_invariants_witness :
    POST (some "https://a.com/") (.ok ["https://b.com"])
      (fun _ => .response "https://c.com/" 200 "OK") (fun _ => 5) = .success sampleScanResult
    ∧ (sampleScanResult.totalLinks = sampleScanResult.links.length
       ∧ sampleScanResult.workingLinks + sampleScanResult.redirects + sampleScanResult.brokenLinks
           = sampleScanResult.totalLinks) :=
  ⟨rfl, C1_scan_invariants (some "https://a.com/") (.ok ["https://b.com"])
    (fun _ => .response "https://c.com/" 200 "OK") (fun _ => 5) sampleScanResult rfl⟩

/-- C2: counterexample.  A link with isWorking = true and isRedirect =
true passes the export filter and its finalUrl appears in the exported
snippet, so the export is not restricted to working non-redirect links. -/
theorem C2_counterexample :
    (checkLink "https://b.com" (.response "https://c.com/" 200 "OK") 5).isWorking = true
    ∧ (checkLink "https://b.com" (.response "https://c.com/" 200 "OK") 5).isRedirect = true
    ∧ exportAsHTML ⟨1, 0, 0, 1, [checkLink "https://b.com" (.response "https://c.com/" 200 "OK") 5]⟩
        = "<!-- Cleaned Links from ClearOut.bio -->\n<div class=\"bio-links\">\n  <a href=\"https://c.com/\" target=\"_blank\" rel=\"noopener noreferrer\">https://c.com/</a>\n</div>" :=
  ⟨rfl, rfl, rfl⟩

/-- C2 (amended): the export filter keeps exactly the links with
isWorking = true — redirects included — and the snippet lists the
finalUrl of each kept link. -/
theorem C2_export_working (result : ScanResult) (link : LinkResult) :
    link ∈ exportWorkingOf result ↔ link ∈ result.links ∧ link.isWorking = true := by
  simp [exportWorkingOf]

/-- C3: counterexample.  When the transport reports an empty response URL
the code falls back to finalUrl = url but still computes isRedirect from
the raw response URL, so isRedirect = true while finalUrl equals the
input url byte-for-byte. -/
theorem C3_counterexample :
    (checkLink "https://a.com" (.response "" 200 "OK") 5).isRedirect = true
    ∧ (checkLink "https://a.com" (.response "" 200 "OK") 5).finalUrl = "https://a.com" :=
  ⟨rfl, rfl⟩

/-- C3 (amended): isRedirect is computed as response.url differing from
the input url; whenever the response URL is nonempty (so the finalUrl
fallback does not trigger), isRedirect = true iff finalUrl differs
byte-for-byte from the input url. -/
theorem C3_isRedirect_iff (url respUrl statusText : String) (status elapsed : Nat)
    (h : respUrl ≠ "") :
    ((checkLink url (.response respUrl status statusText) elapsed).isRedirect = true
      ↔ (checkLink url (.response respUrl status statusText) elapsed).finalUrl ≠ url) := by
  simp [checkLink, h]

/-- C3: witness for the amended equivalence at a concrete probe. -/
theorem C3_isRedirect_iff_witness :
    ("https://c.com/" ≠ "")
    ∧ ((checkLink "https://b.com" (.response "https://c.com/" 200 "OK") 7).isRedirect = true
        ↔ (checkLink "https://b.com" (.response "https://c.com/" 200 "OK") 7).finalUrl
            ≠ "https://b.com") :=
  ⟨by decide, C3_isRedirect_iff "https://b.com" "https://c.com/" "OK" 200 7 (by decide)⟩

/-- C4: the batch scheduler yields exactly one LinkResult per input URL
(the lengths agree), the result at every position i has originalUrl equal
to the input URL at position i, the URLs are processed in consecutive
chunks of at most ten, and the chunks concatenate back to the input in
order. -/
theorem C4_batch_order (outcome : String → FetchOutcome) (elapsed : String → Nat)
    (urls : List String) :
    (processBatches (fun u => checkLink u (outcome u) (elapsed u)) urls).length = urls.length
    ∧ (∀ i : Nat,
        ((processBatches (fun u => checkLink u (outcome u) (elapsed u)) urls)[i]?).map
            LinkResult.originalUrl = urls[i]?)
    ∧ (∀ b ∈ batchesOf urls, b.length ≤ 10)
    ∧ (batchesOf urls).flatten = urls := by
  refine ⟨?_, ?_, batchesOf_chunk_le urls, batchesOf_flatten urls⟩
  · rw [processBatches_eq_map, List.length_map]
  · intro i
    rw [processBatches_eq_map, List.getElem?_map, Option.map_map]
    cases h : urls[i]? with
    | none => rfl
    | some u => simp [checkLink_originalUrl]

/-- C5: on any thrown transport failure the probe returns status 0, the
error's message (or "Network Error" for a non-Error throw) as statusText,
finalUrl equal to the input url, isWorking = false and isRedirect =
false; the catch branch is total, so no failure escapes. -/
theorem C5_probe_failure (url : String) (message : Option String) (elapsed : Nat) :
    (checkLink url (.failure message) elapsed).status = 0
    ∧ (checkLink url (.failure message) elapsed).statusText = message.getD "Network Error"
    ∧ (checkLink url (.failure message) elapsed).finalUrl = url
    ∧ (checkLink url (.failure message) elapsed).isWorking = false
    ∧ (checkLink url (.failure message) elapsed).isRedirect = false :=
  ⟨rfl, rfl, rfl, rfl, rfl⟩

/-- C6: for the statistics computed by the scan's aggregation step,
workingLinks + redirects + brokenLinks = totalLinks: the three counters
partition the probed links. -/
theorem C6_counts_partition (linkResults : List LinkResult) :
    (mkScanResult linkResults).workingLinks + (mkScanResult linkResults).redirects
      + (mkScanResult linkResults).brokenLinks = (mkScanResult linkResults).totalLinks :=
  filter_partition linkResults

/-- C7: the three concrete normalizer examples: root-relative resolution
against the base origin, protocol-relative completion with https (for any
base), and standard relative resolution against the base directory. -/
theorem C7_normalize_examples :
    normalizeUrl "/path" (some "https://a.com/x") = "https://a.com/path"
    ∧ (∀ baseUrl : Option String, normalizeUrl "//a.com/p" baseUrl = "https://a.com/p")
    ∧ normalizeUrl "rel" (some "https://a.com/x/y") = "https://a.com/x/rel" :=
  ⟨rfl, fun _ => rfl, rfl⟩

/-- C8: for every href sequence and base URL the extractor returns a
duplicate-free list with no `mailto:` or `tel:` entry, and the list is
exactly the first-occurrence deduplication of the candidate URLs in
document order. -/
theorem C8_extract_nodup_no_mailto_tel (hrefs : List String) (baseUrl : String) :
    (extractLinks hrefs baseUrl).Nodup
    ∧ (∀ l ∈ extractLinks hrefs baseUrl,
        strStartsWith l "mailto:" = false ∧ strStartsWith l "tel:" = false)
    ∧ extractLinks hrefs baseUrl = dedupFirstSeen [] (candidateUrls hrefs baseUrl) := by
  obtain ⟨h1, h2⟩ := extractLinksGo_invariant baseUrl hrefs [] List.nodup_nil (by simp)
  refine ⟨h1, h2, ?_⟩
  simpa using extractLinksGo_dedup baseUrl hrefs []

/-- C9: a successful page fetch from which zero links are extracted
yields a 200 success with all counts zero and an empty links list. -/
theorem C9_zero_links (url : String) (hrefs : List String)
    (outcome : String → FetchOutcome) (elapsed : String → Nat)
    (h1 : url ≠ "") (h2 : isValidUrl url = true) (h3 : extractLinks hrefs url = []) :
    POST (some url) (.ok hrefs) outcome elapsed
      = .success { totalLinks := 0, workingLinks := 0, brokenLinks := 0, redirects := 0, links := [] } := by
  simp [POST, h1, h2, h3]

/-- C9: witness at a concrete page with no anchors. -/
theorem C9_zero_links_witness :
    ("https://a.com" ≠ "" ∧ isValidUrl "https://a.com" = true
      ∧ extractLinks [] "https://a.com" = [])
    ∧ POST (some "https://a.com") (.ok []) (fun _ => .failure none) (fun _ => 0)
        = .success { totalLinks := 0, workingLinks := 0, brokenLinks := 0, redirects := 0, links := [] } :=
  ⟨⟨by decide, by decide, rfl⟩,
    C9_zero_links "https://a.com" [] (fun _ => .failure none) (fun _ => 0)
      (by decide) (by decide) rfl⟩

/-- C10: the normalizer is total — for every href and base (valid, invalid
or absent) it returns a string: either the try body succeeds and its value
is returned, or the try body throws and the catch returns the original
href unchanged. -/
theorem C10_normalize_total (href : String) (baseUrl : Option String) :
    (∃ s, normalizeUrlAttempt href baseUrl = .ok s ∧ normalizeUrl href baseUrl = s)
    ∨ ((∃ e, normalizeUrlAttempt href baseUrl = .error e) ∧ normalizeUrl href baseUrl = href) := by
  cases h : normalizeUrlAttempt href baseUrl with
  | ok s => exact Or.inl ⟨s, rfl, by simp [normalizeUrl, h]⟩
  | error e => exact Or.inr ⟨⟨e, rfl⟩, by simp [normalizeUrl, h]⟩
